import Mathlib

/-!
# Verification of the MNX viewer's continuation and layout engine

Shallow embedding of the translation core of `src/p/common.js` (the MNX to
VexFlow translator): the continuation trackers for beams, slurs and ties,
the measure-width computation and line justification of the layout engine,
and the error-raising checks of the parser.  Rendered VexFlow note objects
are abstracted as numeric handles; JavaScript numbers are modelled as
rationals (for widths) or integers; the parallel arrays `ids` / `partial`
kept by each continuation tracker are fused into lists of entry structures,
one entry per open continuation.
-/

namespace MNXView

/-- Event and note identifiers (JSON strings). -/
abbrev Ident := String

/-- Rendered event handles (VexFlow StaveNote objects), abstracted as numbers. -/
abbrev Handle := Nat

/-- The error classes of common.js: `MNXParseError` (structural errors),
`UnsupportedFeatureError`, and uncaught JavaScript engine errors
(`ReferenceError` and the like), which `convertMNX` rethrows. -/
inductive MNXError where
  | parse (msg : String)
  | unsupported (msg : String)
  | runtime (msg : String)
deriving DecidableEq

/-- One open beam: an entry of the `beams` object of common.js, fusing the
parallel arrays `beams.ids` (remaining event identifiers, an array per beam)
and `beams.partial` (the handles gathered so far, in observation order). -/
structure BeamEntry where
  ids : List Ident
  partialList : List Handle
deriving DecidableEq

/-- `updateBeamsWithEvent` (common.js 1823-1844): on observing an event, every
open beam whose remaining identifier list contains the event's id pushes the
handle onto its partial list and filters the id out of its remaining list. -/
def updateBeamsWithEvent (beams : List BeamEntry) (id : Ident) (event : Handle) :
    List BeamEntry :=
  beams.map fun b =>
    if id ∈ b.ids then
      { ids := b.ids.filter (fun myID => myID != id),
        partialList := b.partialList ++ [event] }
    else b

/-- `updateBeamsVF` (common.js 1896-1923): split the beams object into the
member lists handed to `factory.Beam` (only beams whose remaining identifier
list is empty and whose partial list has more than one member; completed beams
with at most one member are discarded with no beam object and no error) and
the mutated beams object keeping every incomplete beam. -/
def updateBeamsVF : List BeamEntry → List (List Handle) × List BeamEntry
  | [] => ([], [])
  | b :: rest =>
    let r := updateBeamsVF rest
    if b.ids.length = 0 then
      (if b.partialList.length > 1 then b.partialList :: r.1 else r.1, r.2)
    else (r.1, b :: r.2)

/-- The beam declaration of a part measure (common.js 2242-2249): each
declared beam contributes its `events` identifier array with an empty partial
list, appended to the current beams object by `updateArrayFields`. -/
def openBeams (beams : List BeamEntry) (declareds : List (List Ident)) :
    List BeamEntry :=
  beams ++ declareds.map (fun d => { ids := d, partialList := [] })

/-- The translation pass calls `updateBeamsWithEvent` once per produced event,
in score order: observing a list of (id, handle) pairs folds the update. -/
def observeBeamsAll (beams : List BeamEntry) (obs : List (Ident × Handle)) :
    List BeamEntry :=
  obs.foldl (fun bs p => updateBeamsWithEvent bs p.1 p.2) beams

/-- The effect of a whole observation sequence on a single beam entry. -/
def observeBeamsEntry (b : BeamEntry) (obs : List (Ident × Handle)) : BeamEntry :=
  obs.foldl
    (fun e p =>
      if p.1 ∈ e.ids then
        { ids := e.ids.filter (fun myID => myID != p.1),
          partialList := e.partialList ++ [p.2] }
      else e)
    b

theorem observeBeamsAll_eq_map (obs : List (Ident × Handle))
    (beams : List BeamEntry) :
    observeBeamsAll beams obs = beams.map (fun b => observeBeamsEntry b obs) := by
  induction obs generalizing beams with
  | nil => simp [observeBeamsAll, observeBeamsEntry]
  | cons p rest ih =>
    have h1 : observeBeamsAll beams (p :: rest)
        = observeBeamsAll (updateBeamsWithEvent beams p.1 p.2) rest := rfl
    rw [h1, ih]
    simp only [updateBeamsWithEvent, List.map_map]
    apply List.map_congr_left
    intro b _
    rfl

theorem observeBeamsEntry_run (obs : List (Ident × Handle)) (rem : List Ident)
    (acc : List Handle) (hrem : rem.Nodup) (hobs : (obs.map Prod.fst).Nodup)
    (hsub : ∀ x ∈ rem, x ∈ obs.map Prod.fst) :
    observeBeamsEntry ⟨rem, acc⟩ obs
      = ⟨[], acc ++ (obs.filter (fun p => p.1 ∈ rem)).map Prod.snd⟩ := by
  induction obs generalizing rem acc with
  | nil =>
    have : rem = [] := List.eq_nil_iff_forall_not_mem.mpr (by simpa using hsub)
    subst this
    simp [observeBeamsEntry]
  | cons p rest ih =>
    have hobs' : (rest.map Prod.fst).Nodup := hobs.of_cons
    have hpnotin : p.1 ∉ rest.map Prod.fst := by
      have := hobs
      rw [List.map_cons, List.nodup_cons] at this
      exact this.1
    by_cases hp : p.1 ∈ rem
    · have hstep : observeBeamsEntry ⟨rem, acc⟩ (p :: rest)
          = observeBeamsEntry
              ⟨rem.filter (fun myID => myID != p.1), acc ++ [p.2]⟩ rest := by
        simp [observeBeamsEntry, hp]
      rw [hstep]
      have herase : rem.filter (fun myID => myID != p.1) = rem.erase p.1 :=
        (List.Nodup.erase_eq_filter hrem p.1).symm
      have hrem' : (rem.filter (fun myID => myID != p.1)).Nodup :=
        hrem.filter _
      have hsub' : ∀ x ∈ rem.filter (fun myID => myID != p.1),
          x ∈ rest.map Prod.fst := by
        intro x hx
        rw [List.mem_filter] at hx
        have hxrem := hx.1
        have hxne : x ≠ p.1 := by simpa using hx.2
        have := hsub x hxrem
        rw [List.map_cons, List.mem_cons] at this
        rcases this with h | h
        · exact absurd h hxne
        · exact h
      rw [ih _ _ hrem' hobs' hsub']
      have hfilter : rest.filter (fun q => q.1 ∈ rem.filter (fun myID => myID != p.1))
          = rest.filter (fun q => q.1 ∈ rem) := by
        apply List.filter_congr
        intro q hq
        have hqne : q.1 ≠ p.1 := by
          intro hcontra
          exact hpnotin (hcontra ▸ List.mem_map_of_mem Prod.fst hq)
        simp [List.mem_filter, hqne]
      rw [hfilter]
      have hcons : (p :: rest).filter (fun q => q.1 ∈ rem)
          = p :: rest.filter (fun q => q.1 ∈ rem) := by
        rw [List.filter_cons]
        simp [hp]
      rw [hcons]
      simp
    · have hstep : observeBeamsEntry ⟨rem, acc⟩ (p :: rest)
          = observeBeamsEntry ⟨rem, acc⟩ rest := by
        simp [observeBeamsEntry, hp]
      rw [hstep]
      have hsub' : ∀ x ∈ rem, x ∈ rest.map Prod.fst := by
        intro x hx
        have := hsub x hx
        rw [List.map_cons, List.mem_cons] at this
        rcases this with h | h
        · exact absurd (h ▸ hx) hp
        · exact h
      rw [ih _ _ hrem hobs' hsub']
      have hcons : (p :: rest).filter (fun q => q.1 ∈ rem)
          = rest.filter (fun q => q.1 ∈ rem) := by
        rw [List.filter_cons]
        simp [hp]
      rw [hcons]

theorem filter_mem_length (obs : List (Ident × Handle)) (rem : List Ident)
    (hrem : rem.Nodup) (hobs : (obs.map Prod.fst).Nodup)
    (hsub : ∀ x ∈ rem, x ∈ obs.map Prod.fst) :
    (obs.filter (fun p => p.1 ∈ rem)).length = rem.length := by
  induction obs generalizing rem with
  | nil =>
    have : rem = [] := List.eq_nil_iff_forall_not_mem.mpr (by simpa using hsub)
    subst this
    simp
  | cons p rest ih =>
    have hobs' : (rest.map Prod.fst).Nodup := hobs.of_cons
    have hpnotin : p.1 ∉ rest.map Prod.fst := by
      have := hobs
      rw [List.map_cons, List.nodup_cons] at this
      exact this.1
    by_cases hp : p.1 ∈ rem
    · have hcons : (p :: rest).filter (fun q => q.1 ∈ rem)
          = p :: rest.filter (fun q => q.1 ∈ rem) := by
        rw [List.filter_cons]; simp [hp]
      rw [hcons]
      have hfilter : rest.filter (fun q => q.1 ∈ rem)
          = rest.filter (fun q => q.1 ∈ rem.erase p.1) := by
        apply List.filter_congr
        intro q hq
        have hqne : q.1 ≠ p.1 := by
          intro hcontra
          exact hpnotin (hcontra ▸ List.mem_map_of_mem Prod.fst hq)
        simp [List.mem_erase_of_ne hqne]
      have hsub' : ∀ x ∈ rem.erase p.1, x ∈ rest.map Prod.fst := by
        intro x hx
        have hxrem : x ∈ rem := List.mem_of_mem_erase hx
        have hxne : x ≠ p.1 := (List.Nodup.mem_erase_iff hrem).mp hx |>.1
        have := hsub x hxrem
        rw [List.map_cons, List.mem_cons] at this
        rcases this with h | h
        · exact absurd h hxne
        · exact h
      have hlen := ih (rem.erase p.1) (hrem.erase p.1) hobs' hsub'
      rw [hfilter] at *
      have hpos : 0 < rem.length := List.length_pos_of_mem hp
      have heraselen : (rem.erase p.1).length = rem.length - 1 :=
        List.length_erase_of_mem hp
      simp only [List.length_cons]
      omega
    · have hcons : (p :: rest).filter (fun q => q.1 ∈ rem)
          = rest.filter (fun q => q.1 ∈ rem) := by
        rw [List.filter_cons]; simp [hp]
      rw [hcons]
      apply ih rem hrem hobs'
      intro x hx
      have := hsub x hx
      rw [List.map_cons, List.mem_cons] at this
      rcases this with h | h
      · exact absurd (h ▸ hx) hp
      · exact h

/-- Claim C2: observing an event removes its identifier from every open beam's
remaining set and appends the handle to that beam's partial list in
observation order; when the remaining set becomes empty the beam materializes
with member-list length equal to the declared set size, in score order, and a
beam closing with at most one member is dropped silently (no beam emitted,
no error). -/
theorem c2_beam_resolution (declareds : List (List Ident))
    (obs : List (Ident × Handle))
    (hobs : (obs.map Prod.fst).Nodup)
    (hd : ∀ d ∈ declareds, d.Nodup ∧ ∀ x ∈ d, x ∈ obs.map Prod.fst) :
    observeBeamsAll (openBeams [] declareds) obs
      = declareds.map
          (fun d => ⟨[], (obs.filter (fun p => p.1 ∈ d)).map Prod.snd⟩)
    ∧ ∀ d ∈ declareds,
        ((obs.filter (fun p => p.1 ∈ d)).map Prod.snd).length = d.length
        ∧ updateBeamsVF [⟨[], (obs.filter (fun p => p.1 ∈ d)).map Prod.snd⟩]
            = if 1 < d.length
              then ([(obs.filter (fun p => p.1 ∈ d)).map Prod.snd], [])
              else ([], []) := by
  constructor
  · rw [observeBeamsAll_eq_map]
    simp only [openBeams, List.nil_append, List.map_map]
    apply List.map_congr_left
    intro d hdmem
    have := hd d hdmem
    exact observeBeamsEntry_run obs d [] this.1 hobs this.2
  · intro d hdmem
    have hdd := hd d hdmem
    have hlen : ((obs.filter (fun p => p.1 ∈ d)).map Prod.snd).length = d.length := by
      rw [List.length_map]
      exact filter_mem_length obs d hdd.1 hobs hdd.2
    refine ⟨hlen, ?_⟩
    simp only [updateBeamsVF, List.length_nil, hlen]
    rcases Nat.lt_or_ge 1 d.length with h | h
    · simp [h]
    · have : ¬ (1 < d.length) := Nat.not_lt.mpr h
      simp [this]

theorem c2_beam_resolution_witness :
    observeBeamsAll (openBeams [] [["a", "b"]]) [("a", 0), ("b", 1)]
      = [⟨[], [0, 1]⟩] := by
  have h := c2_beam_resolution [["a", "b"]] [("a", 0), ("b", 1)]
    (by decide) (by decide)
  rw [h.1]
  decide

/-- One open slur: a `slurs.ids` entry of common.js (a JS object whose
`source` / `destination` fields are deleted as each side resolves, modelled
as `Option`s that become `none`) fused with its parallel `slurs.partial`
entry.  Partial entries may be `null` (the placeholder pre-seeded by a
one-sided location declaration), hence `Option Handle`. -/
structure SlurEntry where
  source : Option Ident
  destination : Option Ident
  partialList : List (Option Handle)
deriving DecidableEq

/-- A slur object on an MNX event: either an explicit `target` or a
`location` keyword (getEventItem, common.js 1614-1643). -/
inductive SlurSpec where
  | target (t : Ident)
  | location (loc : String)
deriving DecidableEq

/-- The body of the `item.slurs.map` callback of getEventItem (common.js
1616-1642): a targeted slur pushes `{source, destination}` with an empty
partial list unless an identical (source, target) pair is already open; a
one-sided slur pushes only its own side and pre-seeds the partial list with
`null`; an unrecognized location raises `UnsupportedFeatureError`. -/
def declareSlur (slurs : List SlurEntry) (effectiveItemID : Ident) :
    SlurSpec → Except MNXError (List SlurEntry)
  | .target t =>
    if slurs.any (fun si => si.source = some effectiveItemID
        ∧ si.destination = some t) then
      .ok slurs
    else
      .ok (slurs ++ [⟨some effectiveItemID, some t, []⟩])
  | .location loc =>
    if loc = "outgoing" then
      .ok (slurs ++ [⟨some effectiveItemID, none, [none]⟩])
    else if loc = "incoming" then
      .ok (slurs ++ [⟨none, some effectiveItemID, [none]⟩])
    else
      .error (.unsupported ("Unrecognized slur location " ++ loc ++ "."))

/-- `updateSlursWithEvent` (common.js 1846-1869): for every open slur, if the
observed id matches the outstanding source, the handle is prepended
(`unshift`) and the source field deleted; otherwise if it matches the
outstanding destination, the handle is appended (`push`) and the destination
field deleted. -/
def updateSlursWithEvent (slurs : List SlurEntry) (id : Ident) (event : Handle) :
    List SlurEntry :=
  slurs.map fun e =>
    if e.source = some id then
      { e with source := none, partialList := some event :: e.partialList }
    else if e.destination = some id then
      { e with destination := none, partialList := e.partialList ++ [some event] }
    else e

/-- A `factory.Curve` call: the `from` and `to` arguments, which are
`partial[i][0]` and `partial[i][1]` and may be `null` (or absent). -/
structure CurveVF where
  curveFrom : Option Handle
  curveTo : Option Handle
deriving DecidableEq

/-- `updateSlursVF` (common.js 1925-1953): every slur whose source and
destination fields are both gone is materialized as a Curve from
`partial[i][0]` to `partial[i][1]`; the rest stay in the slurs object. -/
def updateSlursVF : List SlurEntry → List CurveVF × List SlurEntry
  | [] => ([], [])
  | e :: rest =>
    let r := updateSlursVF rest
    if e.source = none ∧ e.destination = none then
      (⟨e.partialList.getD 0 none, e.partialList.getD 1 none⟩ :: r.1, r.2)
    else (r.1, e :: r.2)

/-- One open tie: a `ties.ids` entry fused with its `ties.partial` entry.
Tie partial entries carry the event handle together with the note index
inside the chord; both are `null` in the pre-seeded placeholder. -/
structure TieRef where
  event : Option Handle
  index : Option Nat
deriving DecidableEq

structure TieEntry where
  source : Option Ident
  destination : Option Ident
  partialList : List TieRef
deriving DecidableEq

/-- A tie object on an MNX note: explicit `target` or `location` keyword. -/
inductive TieSpec where
  | target (t : Ident)
  | location (loc : String)
deriving DecidableEq

/-- The tie-declaration step of getEventItem (common.js 1651-1674) for one
note: a targeted tie pushes `{source, destination}` with an empty partial
list; `location: "outgoing"` pushes only the source side with a
`{event: null, index: null}` placeholder.  Any other location value crashes:
the branch reads `s.location`, where `s` is an undefined variable (the slur
callback parameter out of scope), so JavaScript raises a `ReferenceError`
before the `UnsupportedFeatureError` throw can be reached. -/
def declareTie (ties : List TieEntry) (noteID : Ident) :
    TieSpec → Except MNXError (List TieEntry)
  | .target t => .ok (ties ++ [⟨some noteID, some t, []⟩])
  | .location loc =>
    if loc = "outgoing" then
      .ok (ties ++ [⟨some noteID, none, [⟨none, none⟩]⟩])
    else
      .error (.runtime "ReferenceError: s is not defined")

/-- `updateTiesWithEvent` (common.js 1871-1894): observing an event with its
note-id list resolves, for every open tie, an outstanding source contained in
the list (prepending the handle and the note index) or else an outstanding
destination (appending). -/
def updateTiesWithEvent (ties : List TieEntry) (noteIDs : List Ident)
    (event : Handle) : List TieEntry :=
  ties.map fun e =>
    if e.source.any (fun s => s ∈ noteIDs) then
      { e with source := none,
               partialList := ⟨some event, e.source.map noteIDs.indexOf⟩
                 :: e.partialList }
    else if e.destination.any (fun d => d ∈ noteIDs) then
      { e with destination := none,
               partialList := e.partialList
                 ++ [⟨some event, e.destination.map noteIDs.indexOf⟩] }
    else e

/-- Claim C1, counterexample: a slur declared with the one-sided location
flag "outgoing" on event "a" resolves without any other event declaring a
complementary relation — the declaring event's own observation (inside the
same getEventItem call) clears the only outstanding side, and the span
materializes as a Curve connecting the observed handle with `null` rather
than two observed event handles. -/
theorem c1_one_sided_span_counterexample :
    declareSlur [] "a" (.location "outgoing")
      = .ok [⟨some "a", none, [none]⟩]
    ∧ updateSlursWithEvent [⟨some "a", none, [none]⟩] "a" 0
      = [⟨none, none, [some 0, none]⟩]
    ∧ updateSlursVF [⟨none, none, [some 0, none]⟩]
      = ([⟨some 0, none⟩], []) := by
  refine ⟨rfl, by decide, by decide⟩

/-- Claim C1, amended: a slur declared with a one-sided location flag does
not wait for a complementary relation.  Its partial list is pre-seeded with a
`null` placeholder and the declaring event itself immediately resolves its
own side, so the span materializes at the next flush connecting the observed
handle with `null` (source side first, destination second); a tie declared
with location "outgoing" self-resolves the same way at the declaring note,
and a tie with location "incoming" crashes on the undefined-variable read
`s.location` (a ReferenceError, before any error class can be thrown). -/
theorem c1_one_sided_span_self_resolution (id : Ident) (h : Handle)
    (noteID : Ident) :
    declareSlur [] id (.location "outgoing")
      = .ok [⟨some id, none, [none]⟩]
    ∧ updateSlursWithEvent [⟨some id, none, [none]⟩] id h
      = [⟨none, none, [some h, none]⟩]
    ∧ updateSlursVF [⟨none, none, [some h, none]⟩]
      = ([⟨some h, none⟩], [])
    ∧ declareSlur [] id (.location "incoming")
      = .ok [⟨none, some id, [none]⟩]
    ∧ updateSlursWithEvent [⟨none, some id, [none]⟩] id h
      = [⟨none, none, [none, some h]⟩]
    ∧ updateSlursVF [⟨none, none, [none, some h]⟩]
      = ([⟨none, some h⟩], [])
    ∧ declareTie [] noteID (.location "outgoing")
      = .ok [⟨some noteID, none, [⟨none, none⟩]⟩]
    ∧ updateTiesWithEvent [⟨some noteID, none, [⟨none, none⟩]⟩] [noteID] h
      = [⟨none, none, [⟨some h, some 0⟩, ⟨none, none⟩]⟩]
    ∧ declareTie [] noteID (.location "incoming")
      = .error (.runtime "ReferenceError: s is not defined") := by
  refine ⟨?_, ?_, ?_, ?_, ?_, ?_, ?_, ?_, ?_⟩ <;>
    simp [declareSlur, updateSlursWithEvent, updateSlursVF, declareTie,
      updateTiesWithEvent, List.indexOf, List.findIdx_cons]

/-- The end-of-score check of `measuresToFactory` (common.js 2286-2291):
after the final flush, a nonzero number of open beams, slurs or ties raises
an `MNXParseError` whose message carries that number (beams checked first,
then slurs, then ties). -/
def endOfScoreCheck (beams : List BeamEntry) (slurs : List SlurEntry)
    (ties : List TieEntry) : Except MNXError Unit :=
  if beams.length ≠ 0 then
    .error (.parse ("Reached end of score, but " ++ toString beams.length
      ++ " beam(s) were not completed."))
  else if slurs.length ≠ 0 then
    .error (.parse ("Reached end of score, but " ++ toString slurs.length
      ++ " slur(s) were not completed."))
  else if ties.length ≠ 0 then
    .error (.parse ("Reached end of score, but " ++ toString ties.length
      ++ " tie(s) were not completed."))
  else
    .ok ()

/-- Claim C3: if any beam, slur or tie is still unresolved when the last
measure has been processed, the translation pass raises a structural error
(`MNXParseError`) whose message names the number of unresolved continuations
of that kind. -/
theorem c3_end_of_score_error (beams : List BeamEntry) (slurs : List SlurEntry)
    (ties : List TieEntry) :
    (beams ≠ [] →
      endOfScoreCheck beams slurs ties
        = .error (.parse ("Reached end of score, but " ++ toString beams.length
            ++ " beam(s) were not completed.")))
    ∧ (beams = [] → slurs ≠ [] →
      endOfScoreCheck beams slurs ties
        = .error (.parse ("Reached end of score, but " ++ toString slurs.length
            ++ " slur(s) were not completed.")))
    ∧ (beams = [] → slurs = [] → ties ≠ [] →
      endOfScoreCheck beams slurs ties
        = .error (.parse ("Reached end of score, but " ++ toString ties.length
            ++ " tie(s) were not completed.")))
    ∧ (beams = [] → slurs = [] → ties = [] →
      endOfScoreCheck beams slurs ties = .ok ()) := by
  refine ⟨?_, ?_, ?_, ?_⟩
  · intro hb
    have : beams.length ≠ 0 := by simpa using hb
    simp [endOfScoreCheck, this]
  · intro hb hs
    subst hb
    have : slurs.length ≠ 0 := by simpa using hs
    simp [endOfScoreCheck, this]
  · intro hb hs ht
    subst hb; subst hs
    have : ties.length ≠ 0 := by simpa using ht
    simp [endOfScoreCheck, this]
  · intro hb hs ht
    subst hb; subst hs; subst ht
    simp [endOfScoreCheck]

theorem c3_end_of_score_error_witness :
    endOfScoreCheck [⟨["b"], [0]⟩] [] []
      = .error (.parse "Reached end of score, but 1 beam(s) were not completed.") := by
  have h := (c3_end_of_score_error [⟨["b"], [0]⟩] [] []).1 (by simp)
  simpa using h

/-! ## Layout engine: measure widths, reflow, line justification

Constants from the header of common.js (1029-1040).  JavaScript floating
point numbers are modelled as rationals. -/

def defaultSheetWidth : ℚ := 1200

def testMeasureWidth : ℚ := 350

def minMeasureWidth : ℚ := 200

def measureWidthAestheticFactor : ℚ := 2

def sheetWidthSafetyFactor : ℚ := 1 / 100

/-- The scaling factor of `flushLine` (common.js 2015): the safety-padded
sheet width divided by the total provisional width of the line. -/
def scalingFactor (totalWidth : ℚ) : ℚ :=
  defaultSheetWidth * (1 - sheetWidthSafetyFactor) / totalWidth

/-- `flushLine` (common.js 2000-2063) resizes every stave of the line to
`scalingFactor * getWidth()`: the justified widths of a line whose staves
hold the provisional widths `widths`. -/
def justifiedWidths (widths : List ℚ) (totalWidth : ℚ) : List ℚ :=
  widths.map (fun w => scalingFactor totalWidth * w)

/-- The per-part width of a measure (common.js 2088): the stave's note start
offset plus the aesthetic-inflated minimum total width of its voices.  The
two VexFlow measurements (`getNoteStartX`, `preCalculateMinTotalWidth`) are
inputs from the rendering collaborator. -/
def thisPartWidth (noteStartX minTotalWidth : ℚ) : ℚ :=
  noteStartX + (1 + measureWidthAestheticFactor) * minTotalWidth

/-- The `requiredWidth` accumulation loop of `processQueues` (common.js
2081-2091): starting from `null`, take each part's width if it exceeds the
running maximum. -/
def rawRequiredWidth (parts : List (ℚ × ℚ)) : Option ℚ :=
  parts.foldl
    (fun acc pw =>
      match acc with
      | none => some (thisPartWidth pw.1 pw.2)
      | some r =>
        if r < thisPartWidth pw.1 pw.2 then some (thisPartWidth pw.1 pw.2)
        else some r)
    none

/-- The clamping of `requiredWidth` (common.js 2093-2096): `null` falls back
to `testMeasureWidth`; a width exceeding the sheet width is replaced by the
safety-padded sheet width; a width below the minimum is raised to it. -/
def requiredWidthOf (parts : List (ℚ × ℚ)) : ℚ :=
  let r0 := (rawRequiredWidth parts).getD testMeasureWidth
  let r1 := if defaultSheetWidth < r0
            then (1 - sheetWidthSafetyFactor) * defaultSheetWidth
            else r0
  if r1 < minMeasureWidth then minMeasureWidth else r1

/-- The layout position and line queue of `processQueues` /
`measuresToFactory`: the horizontal cursor `x`, the provisional widths of the
measures buffered in the line queue, and the justified width lists of the
lines emitted so far.  (Vertical positioning depends on rendered bounding
boxes, an external collaborator, and is not modelled.) -/
structure LayoutState where
  x : ℚ
  lineWidths : List ℚ
  emittedLines : List (List ℚ)
deriving DecidableEq

/-- `flushLine` as a state transition: justify the buffered line against the
current cursor (`position.x` is passed as `totalWidth`), emit it, clear the
line queue and reset the cursor. -/
def flushLineState (st : LayoutState) : LayoutState :=
  { x := 0,
    lineWidths := [],
    emittedLines := st.emittedLines ++ [justifiedWidths st.lineWidths st.x] }

/-- One iteration of the measure loop of `processQueues` (common.js
2076-2135): compute the clamped required width, reflow (flush the line
queue, reset the cursor) exactly when the cursor plus the required width
exceeds the sheet width, then move the measure into the line queue and
advance the cursor by the required width.  Returns the new state and the
`reflowed` flag. -/
def stepMeasure (st : LayoutState) (parts : List (ℚ × ℚ)) :
    LayoutState × Bool :=
  let rw := requiredWidthOf parts
  let reflowed := decide (defaultSheetWidth < st.x + rw)
  let st1 := if reflowed then flushLineState st else st
  ({ st1 with lineWidths := st1.lineWidths ++ [rw], x := st1.x + rw }, reflowed)

/-- Claim C4: every emitted line is scaled by the single shared factor
`sheetWidth * (1 - safetyMargin) / totalWidth`, so the justified widths sum
to the safety-padded sheet width whenever `totalWidth` is the sum of the
line's provisional widths — and the cursor `x`, which is what both flush
sites pass as `totalWidth`, always equals that sum (the invariant is
preserved by every measure step, so it also holds for the final partial
line flushed at end of document). -/
theorem c4_line_justification (widths : List ℚ) (totalWidth : ℚ)
    (st : LayoutState) (parts : List (ℚ × ℚ))
    (ht : totalWidth = widths.sum) (h0 : totalWidth ≠ 0)
    (hinv : st.x = st.lineWidths.sum) :
    (justifiedWidths widths totalWidth).sum
      = defaultSheetWidth * (1 - sheetWidthSafetyFactor)
    ∧ (stepMeasure st parts).1.x = (stepMeasure st parts).1.lineWidths.sum := by
  constructor
  · have hsum : (justifiedWidths widths totalWidth).sum
        = scalingFactor totalWidth * widths.sum := by
      simpa [justifiedWidths] using
        List.sum_map_mul_left widths (fun w => w) (scalingFactor totalWidth)
    rw [hsum, ← ht, scalingFactor, div_mul_cancel₀ _ h0]
  · simp only [stepMeasure]
    by_cases hr : defaultSheetWidth < st.x + requiredWidthOf parts
    · simp [hr, flushLineState]
    · have hd : decide (defaultSheetWidth < st.x + requiredWidthOf parts)
          = false := decide_eq_false hr
      simp only [hd, Bool.false_eq_true, if_false]
      simp [List.sum_append, hinv]

theorem c4_line_justification_witness :
    (justifiedWidths [100, 200] 300).sum
      = defaultSheetWidth * (1 - sheetWidthSafetyFactor) :=
  (c4_line_justification [100, 200] 300 ⟨0, [], []⟩ []
    (by norm_num) (by norm_num) rfl).1

/-- Claim C6, counterexample: the claim says the required width is clamped
into `[minimumMeasureWidth, sheetWidth * (1 - safetyMargin)]`, but the upper
clamp only fires for widths strictly above the full sheet width: a part
measuring `20 + 3 * 390 = 1190` passes through unchanged even though it
exceeds `0.99 * 1200 = 1188`. -/
theorem c6_width_clamp_counterexample :
    requiredWidthOf [(20, 390)] = 1190
    ∧ (1 - sheetWidthSafetyFactor) * defaultSheetWidth < 1190 := by
  constructor
  · norm_num [requiredWidthOf, rawRequiredWidth, thisPartWidth,
      defaultSheetWidth, testMeasureWidth, minMeasureWidth,
      measureWidthAestheticFactor, sheetWidthSafetyFactor]
  · norm_num [defaultSheetWidth, sheetWidthSafetyFactor]

/-- Claim C6, amended: the required width of a flushed measure lies in
`[minimumMeasureWidth, sheetWidth]`: only a width exceeding the full sheet
width is cut to `sheetWidth * (1 - safetyMargin)` (so a width between the
safety-padded and the full sheet width survives unclamped), a width below
the minimum is raised to it, and with no parts the width falls back to the
default measure width `testMeasureWidth`. -/
theorem c6_width_clamp (parts : List (ℚ × ℚ)) :
    minMeasureWidth ≤ requiredWidthOf parts
    ∧ requiredWidthOf parts ≤ defaultSheetWidth
    ∧ (parts = [] → requiredWidthOf parts = testMeasureWidth)
    ∧ (∀ r, rawRequiredWidth parts = some r → defaultSheetWidth < r →
        requiredWidthOf parts
          = (1 - sheetWidthSafetyFactor) * defaultSheetWidth) := by
  refine ⟨?_, ?_, ?_, ?_⟩
  · simp only [requiredWidthOf, minMeasureWidth, defaultSheetWidth,
      sheetWidthSafetyFactor]
    split_ifs <;> linarith
  · simp only [requiredWidthOf, minMeasureWidth, defaultSheetWidth,
      sheetWidthSafetyFactor]
    split_ifs <;> linarith
  · intro hp
    subst hp
    norm_num [requiredWidthOf, rawRequiredWidth, testMeasureWidth,
      defaultSheetWidth, minMeasureWidth]
  · intro r hr hgt
    simp only [requiredWidthOf, hr, Option.getD_some]
    rw [if_pos hgt, if_neg]
    norm_num [sheetWidthSafetyFactor, defaultSheetWidth, minMeasureWidth]

theorem c6_width_clamp_witness :
    requiredWidthOf [] = testMeasureWidth :=
  (c6_width_clamp []).2.2.1 rfl

/-- A time signature (`{count, unit}`). -/
structure TimeSignature where
  count : Nat
  unit : Nat
deriving DecidableEq

/-- `timeSignatureToVF` (common.js 1366-1376). -/
def timeSignatureToVF (ts : TimeSignature) : String :=
  toString ts.count ++ "/" ++ toString ts.unit

/-- VexFlow barline types used by `processQueues`. -/
inductive BarType where
  | single
  | repeatBegin
  | repeatEnd
  | finalEnd
deriving DecidableEq

/-- The modifiers `processQueues` attaches to a stave.  `addTimeSignature`,
`addKeySignature` and `addClef` append modifiers, so the fields are lists; a
key signature is a pair (key, optional cancelled previous key). -/
structure StaveVF where
  width : ℚ
  timeSigs : List String
  keySigs : List (String × Option String)
  clefs : List String
  begBar : BarType
  endBar : BarType
deriving DecidableEq

/-- The per-measure global attributes gathered by `measuresToFactory`
(`globalMeasureInfoTemplate`, common.js 1089-1103, filled at 2177-2275):
`keyChange` stores `[previousKey, currentKey]`; `startKey` and `startClefs`
record the key and per-part clef state in effect for the measure, for
redrawing headers after a reflow; `clefsAdded` marks parts that drew an
explicit clef in the measure. -/
structure GlobalMeasInfo where
  start : Bool
  isEnd : Bool
  repeatStart : Bool
  repeatEnd : Bool
  timeChange : Option TimeSignature
  keyChange : Option (String × String)
  startKey : String
  startClefs : List String
  clefsAdded : List Bool
deriving DecidableEq

/-- Statement `if (globalAttribs[i].timeChange !== null) ...` (common.js
2114). -/
def addTimeSigStep (g : GlobalMeasInfo) (s : StaveVF) : StaveVF :=
  match g.timeChange with
  | some tc => { s with timeSigs := s.timeSigs ++ [timeSignatureToVF tc] }
  | none => s

/-- Statements at common.js 2115-2120: add the key signature of an explicit
key change (cancelling the previous key), or — only on a reflowed line —
repeat the start key. -/
def addKeySigStep (reflowed : Bool) (g : GlobalMeasInfo) (s : StaveVF) :
    StaveVF :=
  match g.keyChange with
  | some pc => { s with keySigs := s.keySigs ++ [(pc.2, some pc.1)] }
  | none =>
    if reflowed then { s with keySigs := s.keySigs ++ [(g.startKey, none)] }
    else s

/-- Statement `if (reflowed && !...clefsAdded[j]) currentStave.addClef(...)`
(common.js 2122). -/
def addClefStep (reflowed : Bool) (g : GlobalMeasInfo) (j : Nat)
    (s : StaveVF) : StaveVF :=
  if reflowed && !(g.clefsAdded.getD j false) then
    { s with clefs := s.clefs ++ [g.startClefs.getD j "treble"] }
  else s

/-- Statements at common.js 2123-2125: the begin/end barlines. -/
def setBarsStep (g : GlobalMeasInfo) (s : StaveVF) : StaveVF :=
  let s4 := if g.repeatStart then { s with begBar := BarType.repeatBegin }
    else s
  let s5 := if g.isEnd then { s4 with endBar := BarType.finalEnd } else s4
  if g.repeatEnd then { s5 with endBar := BarType.repeatEnd } else s5

/-- The stave-decoration body of `processQueues` (common.js 2110-2125) for
part `j` of a measure: store the required width, then apply the four
modifier statements in source order. -/
def decorateStave (reflowed : Bool) (g : GlobalMeasInfo) (j : Nat) (rw : ℚ)
    (stave : StaveVF) : StaveVF :=
  setBarsStep g
    (addClefStep reflowed g j
      (addKeySigStep reflowed g
        (addTimeSigStep g { stave with width := rw })))

theorem setBarsStep_keySigs (g : GlobalMeasInfo) (s : StaveVF) :
    (setBarsStep g s).keySigs = s.keySigs := by
  simp only [setBarsStep]
  split_ifs <;> rfl

theorem setBarsStep_clefs (g : GlobalMeasInfo) (s : StaveVF) :
    (setBarsStep g s).clefs = s.clefs := by
  simp only [setBarsStep]
  split_ifs <;> rfl

theorem addClefStep_keySigs (reflowed : Bool) (g : GlobalMeasInfo) (j : Nat)
    (s : StaveVF) : (addClefStep reflowed g j s).keySigs = s.keySigs := by
  simp only [addClefStep]
  split_ifs <;> rfl

theorem addKeySigStep_clefs (reflowed : Bool) (g : GlobalMeasInfo)
    (s : StaveVF) : (addKeySigStep reflowed g s).clefs = s.clefs := by
  simp only [addKeySigStep]
  cases g.keyChange
  · split_ifs <;> rfl
  · rfl

theorem addTimeSigStep_keySigs (g : GlobalMeasInfo) (s : StaveVF) :
    (addTimeSigStep g s).keySigs = s.keySigs := by
  simp only [addTimeSigStep]
  cases g.timeChange <;> rfl

theorem addTimeSigStep_clefs (g : GlobalMeasInfo) (s : StaveVF) :
    (addTimeSigStep g s).clefs = s.clefs := by
  simp only [addTimeSigStep]
  cases g.timeChange <;> rfl

/-- Claim C5: a reflow happens exactly when the horizontal cursor plus the
measure's required width exceeds the sheet width; on the first measure of a
reflowed line every part's stave carries a key signature — the key in effect
for the measure (`startKey`, which `measuresToFactory` keeps equal to the
current key of any explicit change) — and every part that did not draw an
explicit clef in the measure carries the clef in effect at its start
(`startClefs`, carried over from the previous line). -/
theorem c5_reflow_behavior (st : LayoutState) (parts : List (ℚ × ℚ))
    (g : GlobalMeasInfo) (j : Nat) (rw : ℚ) (stave : StaveVF)
    (hkey : ∀ pc, g.keyChange = some pc → pc.2 = g.startKey) :
    ((stepMeasure st parts).2 = true
      ↔ defaultSheetWidth < st.x + requiredWidthOf parts)
    ∧ (∃ cancel, (g.startKey, cancel) ∈ (decorateStave true g j rw stave).keySigs)
    ∧ (g.clefsAdded.getD j false = false →
        g.startClefs.getD j "treble" ∈ (decorateStave true g j rw stave).clefs) := by
  refine ⟨?_, ?_, ?_⟩
  · simp [stepMeasure]
  · rw [decorateStave, setBarsStep_keySigs, addClefStep_keySigs]
    cases hkc : g.keyChange with
    | some pc =>
      refine ⟨some pc.1, ?_⟩
      simp [addKeySigStep, hkc, hkey pc hkc]
    | none =>
      refine ⟨none, ?_⟩
      simp [addKeySigStep, hkc]
  · intro hnoclef
    rw [decorateStave, setBarsStep_clefs]
    simp only [List.getD_eq_getElem?_getD] at hnoclef
    simp [addClefStep, hnoclef]

theorem c5_reflow_behavior_witness :
    (stepMeasure ⟨1100, [1100], []⟩ [(20, 100)]).2 = true
    ∧ "bass" ∈ (decorateStave true
        ⟨false, false, false, false, none, none, "C", ["bass"], [false]⟩
        0 320 ⟨350, [], [], [], BarType.single, BarType.single⟩).clefs := by
  have h := c5_reflow_behavior ⟨1100, [1100], []⟩ [(20, 100)]
    ⟨false, false, false, false, none, none, "C", ["bass"], [false]⟩
    0 320 ⟨350, [], [], [], BarType.single, BarType.single⟩
    (by intro pc hpc; cases hpc)
  constructor
  · apply h.1.mpr
    norm_num [requiredWidthOf, rawRequiredWidth, thisPartWidth,
      defaultSheetWidth, testMeasureWidth, minMeasureWidth,
      measureWidthAestheticFactor, sheetWidthSafetyFactor]
  · have hc := h.2.2 (by rfl)
    simpa using hc

/-! ## Identifiers and error-raising checks of the parser -/

/-- An MNX duration: `{base, dots}` (`dots` optional, a JSON number). -/
structure Duration where
  base : String
  dots : Option Int
deriving DecidableEq

/-- The `durationTranslation` lookup table (common.js 1048-1058); `none`
models a base absent from the table. -/
def durationTranslation : String → Option String
  | "whole" => some "w"
  | "half" => some "h"
  | "quarter" => some "q"
  | "eighth" => some "8"
  | "16th" => some "16"
  | "32nd" => some "32"
  | "64th" => some "64"
  | "128th" => some "128"
  | "256th" => some "256"
  | _ => none

/-- An MNX note, as far as identifier synthesis is concerned. -/
structure NoteItem where
  id : Option Ident
  pitchStep : String
  pitchOctave : Int
deriving DecidableEq

/-- An MNX event, as far as identifier synthesis is concerned. -/
structure EventItem where
  id : Option Ident
  notes : List NoteItem
deriving DecidableEq

/-- The effective event identifier of `getEventItem` (common.js 1576-1584):
the author-supplied `id` when present, otherwise the fixed placeholder
string "EVENT21M383". -/
def effectiveItemID (item : EventItem) : Ident :=
  match item.id with
  | some i => i
  | none => "EVENT21M383"

/-- The note identifiers of `getEventItem` (common.js 1645-1650): the note's
own `id` when present, otherwise the event identifier with `_NOTE` and the
note index appended. -/
def noteIDsOf (item : EventItem) : List Ident :=
  item.notes.enum.map fun ni =>
    match ni.2.id with
    | some i => i
    | none => effectiveItemID item ++ "_NOTE" ++ toString ni.1

/-- Claim C7, counterexample: two distinct events without author-supplied
ids receive the same effective identifier — the placeholder is a fixed
string, not synthesized from the event position — and their unlabeled notes
also collide ("EVENT21M383_NOTE0" for both). -/
theorem c7_placeholder_id_counterexample :
    (⟨none, [⟨none, "C", 4⟩]⟩ : EventItem) ≠ (⟨none, [⟨none, "D", 4⟩]⟩ : EventItem)
    ∧ effectiveItemID ⟨none, [⟨none, "C", 4⟩]⟩
      = effectiveItemID ⟨none, [⟨none, "D", 4⟩]⟩
    ∧ noteIDsOf ⟨none, [⟨none, "C", 4⟩]⟩ = ["EVENT21M383_NOTE0"]
    ∧ noteIDsOf ⟨none, [⟨none, "D", 4⟩]⟩ = ["EVENT21M383_NOTE0"] := by
  refine ⟨by decide, rfl, by decide, by decide⟩

/-- Claim C7, amended: an event without an author-supplied id gets the fixed
placeholder identifier "EVENT21M383" rather than one synthesized from its
position, so all unlabeled events in a score share the same effective
identifier (only unlabeled notes get an index-derived suffix, appended to
the shared placeholder). -/
theorem c7_placeholder_id (e1 e2 : EventItem)
    (h1 : e1.id = none) (h2 : e2.id = none) :
    effectiveItemID e1 = "EVENT21M383"
    ∧ effectiveItemID e1 = effectiveItemID e2 := by
  constructor
  · simp [effectiveItemID, h1]
  · simp [effectiveItemID, h1, h2]

theorem c7_placeholder_id_witness :
    effectiveItemID ⟨none, []⟩ = "EVENT21M383"
    ∧ effectiveItemID (⟨none, []⟩ : EventItem)
      = effectiveItemID (⟨none, [⟨none, "E", 5⟩]⟩ : EventItem) :=
  c7_placeholder_id ⟨none, []⟩ ⟨none, [⟨none, "E", 5⟩]⟩ rfl rfl

/-- The duration checks of `getEventItem` for a non-whole-measure event
(common.js 1591-1593): a missing duration is a structural `MNXParseError`;
a base absent from `durationTranslation` is an `UnsupportedFeatureError`. -/
def checkEventDuration (duration : Option Duration) :
    Except MNXError Duration :=
  match duration with
  | none => .error (.parse "Event object requires duration except for whole-measure events.")
  | some d =>
    if (durationTranslation d.base).isSome then .ok d
    else .error (.unsupported ("Duration type " ++ d.base ++ " not recognized."))

/-- The dot count check of `noteToNoteVF` (common.js 1488-1491): absent
`dots` counts as zero; a negative count is a structural `MNXParseError`. -/
def checkDots (duration : Duration) : Except MNXError Nat :=
  let numDots := duration.dots.getD 0
  if numDots < 0 then
    .error (.parse ("Illegal number of dots " ++ toString numDots ++ "."))
  else
    .ok numDots.toNat

/-- The tuplet content validation of `getSequenceContentItem` (common.js
1740-1743) over the content items' `type` tags: any non-"event" child is a
structural `MNXParseError`. -/
def tupletContentCheck (types : List String) : Except MNXError Unit :=
  match types.find? (fun t => t != "event") with
  | some _ => .error (.parse "Tuplet object content can only contain events.")
  | none => .ok ()

/-- The grace content validation of `getSequenceContentItem` (common.js
1718-1721): any non-"event" child is a structural `MNXParseError`. -/
def graceContentCheck (types : List String) : Except MNXError Unit :=
  match types.find? (fun t => t != "event") with
  | some _ => .error (.parse "Grace object content can only contain events.")
  | none => .ok ()

/-- Claim C8, counterexample: an event whose duration base is unrecognized
does not abort with the structural error class — it raises
`UnsupportedFeatureError`, not `MNXParseError`. -/
theorem c8_error_classes_counterexample :
    checkEventDuration (some ⟨"foo", none⟩)
      = .error (.unsupported "Duration type foo not recognized.")
    ∧ ¬ ∃ msg, checkEventDuration (some ⟨"foo", none⟩)
      = .error (.parse msg) := by
  constructor
  · rfl
  · rintro ⟨msg, hmsg⟩
    simp [checkEventDuration, durationTranslation] at hmsg

/-- Claim C8, amended: a tuplet or grace body containing a non-"event" child
and a negative dot count abort with the structural error class
(`MNXParseError`), but an unrecognized duration base aborts with
`UnsupportedFeatureError` instead; none of the three is silently
corrected. -/
theorem c8_error_classes :
    (∀ d : Duration, durationTranslation d.base = none →
      checkEventDuration (some d)
        = .error (.unsupported ("Duration type " ++ d.base ++ " not recognized.")))
    ∧ (∀ types : List String, (∃ t ∈ types, t ≠ "event") →
        tupletContentCheck types
          = .error (.parse "Tuplet object content can only contain events."))
    ∧ (∀ types : List String, (∃ t ∈ types, t ≠ "event") →
        graceContentCheck types
          = .error (.parse "Grace object content can only contain events."))
    ∧ (∀ (dur : Duration) (n : Int), dur.dots = some n → n < 0 →
        checkDots dur
          = .error (.parse ("Illegal number of dots " ++ toString n ++ "."))) := by
  refine ⟨?_, ?_, ?_, ?_⟩
  · intro d hd
    simp [checkEventDuration, hd]
  · intro types hex
    have hsome : (types.find? (fun t => t != "event")).isSome := by
      rw [List.find?_isSome]
      obtain ⟨t, ht, hne⟩ := hex
      exact ⟨t, ht, by simpa using hne⟩
    rw [tupletContentCheck]
    obtain ⟨t, hfind⟩ := Option.isSome_iff_exists.mp hsome
    rw [hfind]
  · intro types hex
    have hsome : (types.find? (fun t => t != "event")).isSome := by
      rw [List.find?_isSome]
      obtain ⟨t, ht, hne⟩ := hex
      exact ⟨t, ht, by simpa using hne⟩
    rw [graceContentCheck]
    obtain ⟨t, hfind⟩ := Option.isSome_iff_exists.mp hsome
    rw [hfind]
  · intro dur n hdots hneg
    simp [checkDots, hdots, hneg]

theorem c8_error_classes_witness :
    tupletContentCheck ["event", "grace"]
      = .error (.parse "Tuplet object content can only contain events.")
    ∧ checkDots ⟨"quarter", some (-1)⟩
      = .error (.parse "Illegal number of dots -1.") := by
  constructor
  · exact c8_error_classes.2.1 ["event", "grace"] ⟨"grace", by simp, by simp⟩
  · exact c8_error_classes.2.2.2 ⟨"quarter", some (-1)⟩ (-1) rfl (by norm_num)

/-- The version check of `parseMNXv1` (common.js 2310): a version other
than 1 throws `MNXParseError` (the generic structural class). -/
def checkVersion (version : Int) : Except MNXError Unit :=
  if version ≠ 1 then .error (.parse "Unsupported version.") else .ok ()

/-- An MNX clef object (`{sign, staffPosition}`). -/
structure ClefMNX where
  sign : String
  staffPosition : Int
deriving DecidableEq

/-- `clefFromMNX` (common.js 1330-1347): only treble (G on position -2) and
bass (F on position 2) are recognized; anything else raises
`UnsupportedFeatureError`. -/
def clefFromMNX (clef : ClefMNX) : Except MNXError String :=
  if clef.sign = "G" ∧ clef.staffPosition = -2 then .ok "treble"
  else if clef.sign = "F" ∧ clef.staffPosition = 2 then .ok "bass"
  else .error (.unsupported "Unrecognized clef.")

/-- Claim C9, counterexample: a document whose mnx.version is not 1 does not
raise the unsupported-feature class — `parseMNXv1` throws `MNXParseError`
("Unsupported version."), the generic structural-parse class. -/
theorem c9_error_classes_counterexample :
    checkVersion 2 = .error (.parse "Unsupported version.")
    ∧ ¬ ∃ msg, checkVersion 2 = .error (.unsupported msg) := by
  constructor
  · rfl
  · rintro ⟨msg, hmsg⟩
    simp [checkVersion] at hmsg

/-- Claim C9, amended: an unrecognized clef and an unrecognized duration
base raise the distinct unsupported-feature class
(`UnsupportedFeatureError`), but an mnx.version other than 1 raises the
generic structural-parse class (`MNXParseError`) instead. -/
theorem c9_error_classes :
    (∀ v : Int, v ≠ 1 →
      checkVersion v = .error (.parse "Unsupported version."))
    ∧ (∀ c : ClefMNX, ¬(c.sign = "G" ∧ c.staffPosition = -2) →
        ¬(c.sign = "F" ∧ c.staffPosition = 2) →
        clefFromMNX c = .error (.unsupported "Unrecognized clef."))
    ∧ (∀ d : Duration, durationTranslation d.base = none →
        checkEventDuration (some d)
          = .error (.unsupported ("Duration type " ++ d.base ++ " not recognized."))) := by
  refine ⟨?_, ?_, ?_⟩
  · intro v hv
    simp [checkVersion, hv]
  · intro c h1 h2
    simp [clefFromMNX, h1, h2]
  · intro d hd
    simp [checkEventDuration, hd]

theorem c9_error_classes_witness :
    checkVersion 0 = .error (.parse "Unsupported version.")
    ∧ clefFromMNX ⟨"C", 0⟩ = .error (.unsupported "Unrecognized clef.")
    ∧ checkEventDuration (some ⟨"512th", none⟩)
      = .error (.unsupported "Duration type 512th not recognized.") := by
  refine ⟨?_, ?_, ?_⟩
  · exact c9_error_classes.1 0 (by norm_num)
  · exact c9_error_classes.2.1 ⟨"C", 0⟩ (by simp) (by simp)
  · exact c9_error_classes.2.2 ⟨"512th", none⟩ rfl

/-! ## The grace-note queue of `getSequences` -/

/-- A sequence content item, as far as the grace queue is concerned: an
`event` consumes (attaches and clears) any queued grace notes; a `grace`
item appends one flagged grace note per content event; a `tuplet`
translates its content events as ordinary events, so a nonempty tuplet also
consumes the queue. -/
inductive GraceItem where
  | event
  | grace (numNotes : Nat)
  | tuplet (numEvents : Nat)
deriving DecidableEq

/-- The effect of one content item on the number of queued grace notes
(`getSequenceContentItem` together with the queue-clearing step of
`getEventItem`, common.js 1680-1683, 1711-1728, 1746). -/
def stepGrace (queue : Nat) : GraceItem → Nat
  | .event => 0
  | .grace n => queue + n
  | .tuplet n => if n = 0 then queue else 0

/-- The grace queue left after translating all sequences of one
part-measure: `getSequences` (common.js 1792-1821) creates a fresh queue
per call and shares it across the measure's sequences in order. -/
def graceResidual (sequences : List (List GraceItem)) : Nat :=
  sequences.foldl (fun q seq => seq.foldl stepGrace q) 0

/-- The end-of-measure check of `getSequences` (common.js 1819): a nonzero
residual queue is a structural `MNXParseError` naming the count; the queue
is never carried over (it is not part of the returned value). -/
def getSequencesGraceCheck (sequences : List (List GraceItem)) :
    Except MNXError Unit :=
  if graceResidual sequences ≠ 0 then
    .error (.parse (toString (graceResidual sequences)
      ++ " groups of grace notes were not resolved."))
  else
    .ok ()

/-- Claim C10: the grace queue is local to one part-measure — it starts
empty at each `getSequences` call, and if grace notes remain queued after
all the measure's sequences (in particular whenever the last item of the
last sequence is a nonempty grace group, since no later event consumes it),
translation raises a structural `MNXParseError` reporting the unresolved
count instead of carrying the notes over. -/
theorem c10_grace_queue (sequences : List (List GraceItem))
    (pre : List (List GraceItem)) (seq : List GraceItem) (k : Nat) :
    (graceResidual sequences ≠ 0 →
      getSequencesGraceCheck sequences
        = .error (.parse (toString (graceResidual sequences)
            ++ " groups of grace notes were not resolved.")))
    ∧ (graceResidual sequences = 0 →
        getSequencesGraceCheck sequences = .ok ())
    ∧ (0 < k → graceResidual (pre ++ [seq ++ [.grace k]]) ≠ 0) := by
  refine ⟨?_, ?_, ?_⟩
  · intro h
    simp [getSequencesGraceCheck, h]
  · intro h
    simp [getSequencesGraceCheck, h]
  · intro hk
    have hsplit : graceResidual (pre ++ [seq ++ [GraceItem.grace k]])
        = (seq ++ [GraceItem.grace k]).foldl stepGrace (graceResidual pre) := by
      simp [graceResidual, List.foldl_append]
    rw [hsplit, List.foldl_append]
    simp only [List.foldl_cons, List.foldl_nil, stepGrace]
    omega

theorem c10_grace_queue_witness :
    getSequencesGraceCheck [[.event, .grace 2]]
      = .error (.parse "2 groups of grace notes were not resolved.") := by
  have h := (c10_grace_queue [[.event, .grace 2]] [] [] 1).1 (by decide)
  simpa using h

end MNXView
